import Mathlib

/-!
Verification of the session layer of `electrumx-evrmore`
(`electrumx/server/session.py`): the session manager, its caches and
reorg coherence, the cost model, the subscription machinery and the
status-hash derivation.  Python objects are shallowly embedded: bytes
are `List Nat` (each entry < 256), association tables (`dict`) are
association lists, Python `set`s are `List`s with erase-style removal,
`float` costs are `ℚ`, fallible handlers return `Except RPCErr`.
Concurrency (awaits during which the reorg counter may advance) is
embedded by passing an explicit trace of fetch completions.
-/

set_option maxRecDepth 4000

/-! ## Bytes, hex and decimal encodings -/

/-- Lower-case hex digit for a value < 16 (`0-9a-f`). -/
def hexDigit (n : Nat) : Char :=
  if n < 10 then Char.ofNat (48 + n) else Char.ofNat (87 + n)

/-- Two lower-case hex digits of one byte. -/
def byteHex (b : Nat) : List Char :=
  [hexDigit (b / 16), hexDigit (b % 16)]

/-- Lower-case hex string of a byte list, in list order (`bytes.hex()`). -/
def bytesToHex (bs : List Nat) : String :=
  String.mk (bs.map byteHex).flatten

/-- `electrumx.lib.hash.hash_to_hex_str`: display hex of a binary hash is
the hex of the reversed bytes. -/
def hash_to_hex_str (h : List Nat) : String :=
  bytesToHex h.reverse

/-- ASCII codes of a string (the status functions encode their strings
as ASCII before hashing). -/
def asciiBytes (s : String) : List Nat :=
  s.data.map Char.toNat

/-- Decimal ASCII rendering of a natural number, as Python `str`. -/
def natDecimal (n : Nat) : List Nat :=
  (Nat.toDigits 10 n).map Char.toNat

/-- Decimal ASCII rendering of an integer, as Python d-format. -/
def intDecimal (i : Int) : List Nat :=
  if i < 0 then 45 :: natDecimal i.natAbs else natDecimal i.toNat

/-! ## SHA-256 (FIPS 180-4), executable over byte lists -/

/-- 2^32, the word modulus of SHA-256. -/
def M32 : Nat := 4294967296

/-- Word addition modulo 2^32. -/
def add32 (a b : Nat) : Nat := (a + b) % M32

/-- Right rotation of a 32-bit word (input assumed < 2^32). -/
def rotr32 (n x : Nat) : Nat :=
  (x >>> n) ||| ((x % (2 ^ n)) <<< (32 - n))

/-- Bitwise complement within 32 bits. -/
def not32 (x : Nat) : Nat := x ^^^ (M32 - 1)

/-- SHA-256 `Ch` function. -/
def sha_ch (x y z : Nat) : Nat := (x &&& y) ^^^ (not32 x &&& z)

/-- SHA-256 `Maj` function. -/
def sha_maj (x y z : Nat) : Nat := (x &&& y) ^^^ (x &&& z) ^^^ (y &&& z)

/-- SHA-256 big Σ₀. -/
def bigSigma0 (x : Nat) : Nat := rotr32 2 x ^^^ rotr32 13 x ^^^ rotr32 22 x

/-- SHA-256 big Σ₁. -/
def bigSigma1 (x : Nat) : Nat := rotr32 6 x ^^^ rotr32 11 x ^^^ rotr32 25 x

/-- SHA-256 small σ₀. -/
def smallSigma0 (x : Nat) : Nat := rotr32 7 x ^^^ rotr32 18 x ^^^ (x >>> 3)

/-- SHA-256 small σ₁. -/
def smallSigma1 (x : Nat) : Nat := rotr32 17 x ^^^ rotr32 19 x ^^^ (x >>> 10)

/-- The 64 SHA-256 round constants. -/
def sha_K : List Nat :=
  [1116352408, 1899447441, 3049323471, 3921009573, 961987163,
   1508970993, 2453635748, 2870763221, 3624381080, 310598401,
   607225278, 1426881987, 1925078388, 2162078206, 2614888103,
   3248222580, 3835390401, 4022224774, 264347078, 604807628,
   770255983, 1249150122, 1555081692, 1996064986, 2554220882,
   2821834349, 2952996808, 3210313671, 3336571891, 3584528711,
   113926993, 338241895, 666307205, 773529912, 1294757372,
   1396182291, 1695183700, 1986661051, 2177026350, 2456956037,
   2730485921, 2820302411, 3259730800, 3345764771, 3516065817,
   3600352804, 4094571909, 275423344, 430227734, 506948616,
   659060556, 883997877, 958139571, 1322822218, 1537002063,
   1747873779, 1955562222, 2024104815, 2227730452, 2361852424,
   2428436474, 2756734187, 3204031479, 3329325298]

/-- The SHA-256 initial hash value. -/
def sha_H0 : List Nat :=
  [1779033703, 3144134277, 1013904242, 2773480762,
   1359893119, 2600822924, 528734635, 1541459225]

/-- Big-endian 8-byte encoding of a natural number. -/
def be8 (n : Nat) : List Nat :=
  [(n >>> 56) % 256, (n >>> 48) % 256, (n >>> 40) % 256, (n >>> 32) % 256,
   (n >>> 24) % 256, (n >>> 16) % 256, (n >>> 8) % 256, n % 256]

/-- Big-endian 4-byte encoding of a 32-bit word. -/
def be4 (n : Nat) : List Nat :=
  [(n >>> 24) % 256, (n >>> 16) % 256, (n >>> 8) % 256, n % 256]

/-- SHA-256 padding: `0x80`, zeros to 56 mod 64, then the bit length. -/
def padMessage (msg : List Nat) : List Nat :=
  msg ++ [0x80] ++ List.replicate ((119 - msg.length % 64) % 64) 0
      ++ be8 (8 * msg.length)

/-- Split a list into chunks of `k` elements (fuel-driven). -/
def chunksGo (k : Nat) : Nat → List α → List (List α)
  | 0, _ => []
  | _, [] => []
  | fuel + 1, l => l.take k :: chunksGo k fuel (l.drop k)

/-- Split a list into chunks of `k` elements. -/
def chunks (k : Nat) (l : List α) : List (List α) :=
  chunksGo k l.length l

/-- One big-endian 32-bit word from four bytes. -/
def beWord : List Nat → Nat
  | [b0, b1, b2, b3] => b0 <<< 24 + b1 <<< 16 + b2 <<< 8 + b3
  | _ => 0

/-- The next message-schedule word from the words produced so far. -/
def nextW (w : List Nat) : Nat :=
  let t := w.length
  add32 (add32 (smallSigma1 (w.getD (t - 2) 0)) (w.getD (t - 7) 0))
        (add32 (smallSigma0 (w.getD (t - 15) 0)) (w.getD (t - 16) 0))

/-- Extend the 16 block words to the 64-entry message schedule. -/
def buildSchedule (w16 : List Nat) : List Nat :=
  (List.range 48).foldl (fun w _ => w ++ [nextW w]) w16

/-- One SHA-256 compression round on the eight working variables. -/
def compressStep (st : List Nat) (kw : Nat × Nat) : List Nat :=
  match st with
  | [a, b, c, d, e, f, g, h] =>
    let t1 := add32 h (add32 (bigSigma1 e) (add32 (sha_ch e f g) (add32 kw.1 kw.2)))
    let t2 := add32 (bigSigma0 a) (sha_maj a b c)
    [add32 t1 t2, a, b, c, add32 d t1, e, f, g]
  | _ => st

/-- Compress one 64-byte block into the running hash state. -/
def compressBlock (hs : List Nat) (block : List Nat) : List Nat :=
  let w := buildSchedule ((chunks 4 block).map beWord)
  let st := (sha_K.zip w).foldl compressStep hs
  (hs.zip st).map (fun p => add32 p.1 p.2)

/-- SHA-256 digest of a byte list, as 32 bytes. -/
def sha256 (msg : List Nat) : List Nat :=
  (((chunks 64 (padMessage msg)).foldl compressBlock sha_H0).map be4).flatten

/-- `sha256(bytes).hex()`: the lower-case hex digest. -/
def sha256hex (msg : List Nat) : String :=
  bytesToHex (sha256 msg)

/-! ## Errors and association tables -/

/-- `aiorpcx.RPCError` as this layer uses it: an error code, a message,
and the cost attached when a saved error is cached (`limited_history`). -/
structure RPCErr where
  code : Nat
  msg : String
  cost : ℚ := 0
deriving DecidableEq, Repr

/-- `BAD_REQUEST = 1`. -/
def BAD_REQUEST : Nat := 1

/-- `DAEMON_ERROR = 2`. -/
def DAEMON_ERROR : Nat := 2

/-- Lookup in a Python `dict` embedded as an association list. -/
def alookup [DecidableEq α] : List (α × β) → α → Option β
  | [], _ => none
  | p :: rest, key => if p.1 = key then some p.2 else alookup rest key

/-- Remove a key from an embedded `dict` (`d.pop(k, None)`). -/
def aremove [DecidableEq α] : List (α × β) → α → List (α × β)
  | [], _ => []
  | p :: rest, key => if p.1 = key then aremove rest key else p :: aremove rest key

/-- Set a key in an embedded `dict` (`d[k] = v`). -/
def ainsert [DecidableEq α] (l : List (α × β)) (key : α) (v : β) : List (α × β) :=
  (key, v) :: aremove l key

theorem alookup_aremove_self [DecidableEq α] (l : List (α × β)) (k : α) :
    alookup (aremove l k) k = none := by
  induction l with
  | nil => rfl
  | cons p rest ih =>
    by_cases h : p.1 = k <;> simp [aremove, alookup, h, ih]

theorem alookup_aremove_ne [DecidableEq α] (l : List (α × β)) (k k' : α)
    (h : k' ≠ k) : alookup (aremove l k) k' = alookup l k' := by
  induction l with
  | nil => rfl
  | cons p rest ih =>
    by_cases hp : p.1 = k
    · have hp' : p.1 ≠ k' := by rw [hp]; exact Ne.symm h
      simp [aremove, alookup, hp, hp', ih, Ne.symm h]
    · by_cases hp' : p.1 = k' <;> simp [aremove, alookup, hp, hp', ih, h]

theorem alookup_ainsert_self [DecidableEq α] (l : List (α × β)) (k : α) (v : β) :
    alookup (ainsert l k v) k = some v := by
  simp [ainsert, alookup]

theorem alookup_ainsert_ne [DecidableEq α] (l : List (α × β)) (k k' : α) (v : β)
    (h : k' ≠ k) : alookup (ainsert l k v) k' = alookup l k' := by
  have hk : ¬ (k = k') := Ne.symm h
  simp only [ainsert, alookup, hk, if_false]
  exact alookup_aremove_ne l k k' h

/-- Python `set.discard`: removes the element when present; its return
value is always `None` (the source compares it with `is not None`). -/
def setDiscard [DecidableEq α] (l : List α) (a : α) : Option Unit × List α :=
  (none, l.filter (fun x => x ≠ a))

/-! ## Session state and subscription operations (`ElectrumX`) -/

/-- A mempool transaction summary (`mempool.transaction_summaries`). -/
structure MempoolTx where
  hash : List Nat
  has_unconfirmed_inputs : Bool
deriving DecidableEq, Repr

/-- The subscription-relevant per-session state of `ElectrumX.__init__`. -/
structure SessionState where
  subscribe_headers : Bool := false
  hashX_subs : List (List Nat × String) := []
  asset_subs : List String := []
  qualifier_tag_subs : List String := []
  h160_tag_subs : List (List Nat) := []
  broadcast_subs : List String := []
  frozen_subs : List String := []
  validator_subs : List String := []
  qualifier_validator_subs : List String := []
  sv_seen : Bool := false
  mempool_statuses : List (List Nat × Option String) := []
  protocol_tuple : Nat × Nat := (1, 4)
deriving DecidableEq, Repr

/-- A fresh session (all subscription sets empty). -/
def initSession : SessionState := {}

/-- `check_asset`: a non-string argument is outside this typed embedding;
the length checks are as in the source. -/
def check_asset (name : String) : Except RPCErr Unit :=
  if name.length ≤ 0 then Except.error ⟨BAD_REQUEST, "asset name is empty!", 0⟩
  else if name.length > 32 then
    Except.error ⟨BAD_REQUEST, "asset name greater than 32 characters", 0⟩
  else Except.ok ()

/-- `check_h160` (string-ness is enforced by the types of the embedding). -/
def check_h160 (h160 : String) : Except RPCErr Unit :=
  if h160.length ≠ 40 then Except.error ⟨BAD_REQUEST, "h160 not 20 bytes", 0⟩
  else Except.ok ()

/-- `ElectrumX.asset_unsubscribe` (`bump_cost` telemetry elided). -/
def asset_unsubscribe (s : SessionState) (asset : String) :
    Except RPCErr (Bool × SessionState) :=
  match check_asset asset with
  | Except.error e => Except.error e
  | Except.ok _ =>
    let (r, subs) := setDiscard s.asset_subs asset
    Except.ok (r.isSome, { s with asset_subs := subs })

/-- `ElectrumX.unsubscribe_qualifier_tagging`. -/
def unsubscribe_qualifier_tagging (s : SessionState) (qualifier : String) :
    Except RPCErr (Bool × SessionState) :=
  match check_asset qualifier with
  | Except.error e => Except.error e
  | Except.ok _ =>
    let (r, subs) := setDiscard s.qualifier_tag_subs qualifier
    Except.ok (r.isSome, { s with qualifier_tag_subs := subs })

/-- `ElectrumX.unsubscribe_h160_tagged`; the `bytes.fromhex` decoding of
the 40-character argument is elided, the decoded 20 bytes are passed. -/
def unsubscribe_h160_tagged (s : SessionState) (h160 : String) (h160_b : List Nat) :
    Except RPCErr (Bool × SessionState) :=
  match check_h160 h160 with
  | Except.error e => Except.error e
  | Except.ok _ =>
    let (r, subs) := setDiscard s.h160_tag_subs h160_b
    Except.ok (r.isSome, { s with h160_tag_subs := subs })

/-- `ElectrumX.unsubscribe_broadcast`. -/
def unsubscribe_broadcast (s : SessionState) (asset : String) :
    Except RPCErr (Bool × SessionState) :=
  match check_asset asset with
  | Except.error e => Except.error e
  | Except.ok _ =>
    let (r, subs) := setDiscard s.broadcast_subs asset
    Except.ok (r.isSome, { s with broadcast_subs := subs })

/-- `ElectrumX.unsubscribe_asset_freeze`. -/
def unsubscribe_asset_freeze (s : SessionState) (asset : String) :
    Except RPCErr (Bool × SessionState) :=
  match check_asset asset with
  | Except.error e => Except.error e
  | Except.ok _ =>
    let (r, subs) := setDiscard s.frozen_subs asset
    Except.ok (r.isSome, { s with frozen_subs := subs })

/-- `ElectrumX.unsubscribe_restricted_verification_change`. -/
def unsubscribe_restricted_verification_change (s : SessionState) (asset : String) :
    Except RPCErr (Bool × SessionState) :=
  match check_asset asset with
  | Except.error e => Except.error e
  | Except.ok _ =>
    let (r, subs) := setDiscard s.validator_subs asset
    Except.ok (r.isSome, { s with validator_subs := subs })

/-- `ElectrumX.unsubscribe_qualifier_associated_restricted`. -/
def unsubscribe_qualifier_associated_restricted (s : SessionState) (asset : String) :
    Except RPCErr (Bool × SessionState) :=
  match check_asset asset with
  | Except.error e => Except.error e
  | Except.ok _ =>
    if asset.front ≠ '#' then
      Except.error ⟨BAD_REQUEST, asset ++ " is not a qualifier", 0⟩
    else
      let (r, subs) := setDiscard s.qualifier_validator_subs asset
      Except.ok (r.isSome, { s with qualifier_validator_subs := subs })

/-- `ElectrumX.unsubscribe_hashX`: pop the hashX from `mempool_statuses`,
then pop and return its entry from `hashX_subs`. -/
def unsubscribe_hashX (s : SessionState) (hashX : List Nat) :
    Option String × SessionState :=
  let s1 := { s with mempool_statuses := aremove s.mempool_statuses hashX }
  (alookup s1.hashX_subs hashX,
   { s1 with hashX_subs := aremove s1.hashX_subs hashX })

/-- `ElectrumX.scripthash_unsubscribe`: `unsubscribe_hashX(hashX) is not
None` (the hex parse of the scripthash argument and `bump_cost` elided). -/
def scripthash_unsubscribe (s : SessionState) (hashX : List Nat) :
    Bool × SessionState :=
  let (r, s') := unsubscribe_hashX s hashX
  (r.isSome, s')

/-! ## Address status (`ElectrumX.address_status`) -/

/-- The ASCII status string of `address_status`: for each confirmed
pair the bytes of its display-hex tx hash, a colon, the decimal height
and a colon; then for each mempool tx its display-hex hash, a colon, the
decimal of minus its unconfirmed-inputs flag and a colon (58 is the
ASCII colon). -/
def statusBytes (db_history : List (List Nat × Int)) (mempool : List MempoolTx) :
    List Nat :=
  (db_history.map (fun p =>
      asciiBytes (hash_to_hex_str p.1) ++ [58] ++ intDecimal p.2 ++ [58])).flatten
  ++ (mempool.map (fun tx =>
      asciiBytes (hash_to_hex_str tx.hash) ++ [58]
        ++ intDecimal (if tx.has_unconfirmed_inputs then -1 else 0) ++ [58])).flatten

/-- `ElectrumX.address_status`.  The `session_mgr.limited_history` result
(which may be a raised `RPCError`) and the mempool summaries are passed
explicitly; `bump_cost` telemetry is elided. -/
def address_status (st : SessionState) (hashX : List Nat)
    (histRes : Except RPCErr (List (List Nat × Int))) (mempool : List MempoolTx) :
    Except RPCErr (Option String × SessionState) :=
  match histRes with
  | Except.error e => Except.error e
  | Except.ok db_history =>
    let status := statusBytes db_history mempool
    let statusOpt := if status.isEmpty then none else some (sha256hex status)
    let st' :=
      if mempool.isEmpty then
        { st with mempool_statuses := aremove st.mempool_statuses hashX }
      else
        { st with mempool_statuses := ainsert st.mempool_statuses hashX statusOpt }
    Except.ok (statusOpt, st')

/-- `ElectrumX.hashX_subscribe`: the subscription is stored only after
`address_status` succeeds. -/
def hashX_subscribe (st : SessionState) (hashX : List Nat) (aliasStr : String)
    (histRes : Except RPCErr (List (List Nat × Int))) (mempool : List MempoolTx) :
    Except RPCErr (Option String × SessionState) :=
  match address_status st hashX histRes mempool with
  | Except.error e => Except.error e
  | Except.ok (result, st') =>
    Except.ok (result, { st' with hashX_subs := ainsert st'.hashX_subs hashX aliasStr })

/-- `ElectrumX.subscription_address_status`: as `address_status`, but an
`RPCError` discards the subscription and reports `None`. -/
def subscription_address_status (st : SessionState) (hashX : List Nat)
    (histRes : Except RPCErr (List (List Nat × Int))) (mempool : List MempoolTx) :
    Option String × SessionState :=
  match address_status st hashX histRes mempool with
  | Except.ok r => r
  | Except.error _ =>
    let (_, st') := unsubscribe_hashX st hashX
    (none, st')

/-- Status string as the status table of the spec states it, entry by
entry: confirmed history in db order, then mempool txs. -/
def specStatusBytes : List (List Nat × Int) → List MempoolTx → List Nat
  | (tx_hash, height) :: rest, mem =>
      asciiBytes (hash_to_hex_str tx_hash) ++ [58] ++ intDecimal height ++ [58]
        ++ specStatusBytes rest mem
  | [], tx :: rest =>
      asciiBytes (hash_to_hex_str tx.hash) ++ [58]
        ++ intDecimal (if tx.has_unconfirmed_inputs then -1 else 0) ++ [58]
        ++ specStatusBytes [] rest
  | [], [] => []

/-- The scripthash status rule of the spec: lower-case hex SHA-256 of
the concatenated ASCII string, null when both inputs are empty. -/
def spec_scripthash_status (db_history : List (List Nat × Int))
    (mempool : List MempoolTx) : Option String :=
  if db_history = [] ∧ mempool = [] then none
  else some (sha256hex (specStatusBytes db_history mempool))

/-! ## Session groups and the manager cost model -/

/-- The cost-relevant view of a session in the manager table: its id and
its current `cost` counter. -/
structure Sess where
  sid : Nat
  cost : ℚ
deriving DecidableEq, Repr

/-- `SessionGroup` (an `attr` record in the source). -/
structure SessionGroup where
  name : String
  weight : ℚ
  sessions : List Sess
  retained_cost : ℚ
deriving DecidableEq, Repr

/-- `SessionGroup.session_cost`: the summed cost of the member sessions. -/
def SessionGroup.session_cost (g : SessionGroup) : ℚ :=
  (g.sessions.map Sess.cost).sum

/-- `SessionGroup.cost`: retained cost plus member session cost. -/
def SessionGroup.cost (g : SessionGroup) : ℚ :=
  g.retained_cost + g.session_cost

/-- `SessionManager.extra_cost`: a session absent from the manager table
contributes 0 (it may have been removed concurrently); otherwise the
weighted surcharge over its groups. -/
def extra_cost (tbl : List (Nat × List SessionGroup)) (s : Sess) : ℚ :=
  match alookup tbl s.sid with
  | none => 0
  | some groups => (groups.map (fun g => (g.cost - s.cost) * g.weight)).sum

/-! ## Manager state, reorg handling and the tx-hashes cache -/

deriving instance DecidableEq for Except

/-- The manager state touched by the cache and reorg machinery
(`SessionManager.__init__`; lookup/hit counters and loggers elided).
Merkle-cache values are opaque handles. -/
structure ManagerState where
  reorg_count : Nat := 0
  tx_hashes_cache : List (Nat × List (List Nat)) := []
  merkle_cache : List (Nat × Nat) := []
  history_cache : List (List Nat × Except RPCErr (List (List Nat × Int))) := []
  estimatefee_cache : List ((Nat × String) × (Option (List Nat) × Option ℚ)) := []
  notified_height : Option Nat := none
  txs_sent : Nat := 0
  sessions : List (Nat × List SessionGroup) := []
deriving DecidableEq, Repr

/-- One iteration of `SessionManager._handle_chain_reorgs` after
`bp.backed_up_event` fires (logging elided): bump the reorg counter and
clear the tx-hashes and merkle caches. -/
def handle_chain_reorg_step (m : ManagerState) : ManagerState :=
  { m with reorg_count := m.reorg_count + 1,
           tx_hashes_cache := [],
           merkle_cache := [] }

/-- One DB fetch completion inside `tx_hashes_at_blockheight`: the
result of `db.tx_hashes_at_blockheight` (or a `DBError` message) paired
with the value of the manager reorg counter when the await completes. -/
abbrev Fetch := Except String (List (List Nat)) × Nat

/-- The retry loop of `tx_hashes_at_blockheight`: snapshot the reorg
counter, fetch, and accept the result only if the counter is unchanged
at completion; a `DBError` raises immediately.  `none` means the trace
ran out before a stable fetch (the call is still looping). -/
def fetchLoop : List Fetch → Nat → Option (Except String (List (List Nat)) × Nat)
  | [], _ => none
  | (res, rc) :: rest, snap =>
    match res with
    | Except.error e => some (Except.error e, rc)
    | Except.ok hs => if rc = snap then some (Except.ok hs, rc) else fetchLoop rest rc

/-- Result of `tx_hashes_at_blockheight`: the hashes with their cost and
the manager state after the call, a raised `RPCError`, or `pending` when
the fetch trace ran out. -/
inductive TxHashesResult where
  | ok (tx_hashes : List (List Nat)) (cost : ℚ) (m : ManagerState)
  | err (e : RPCErr) (m : ManagerState)
  | pending
deriving DecidableEq, Repr

/-- The cache-miss path of `tx_hashes_at_blockheight`: loop until a
fetch survives the reorg-counter check, then install and price it. -/
def tx_hashes_miss (m : ManagerState) (height : Nat) (fetches : List Fetch) :
    TxHashesResult :=
  match fetchLoop fetches m.reorg_count with
  | none => TxHashesResult.pending
  | some (Except.error e, rc) =>
      TxHashesResult.err ⟨BAD_REQUEST, "db error: " ++ e, 0⟩
        { m with reorg_count := rc }
  | some (Except.ok hs, rc) =>
      TxHashesResult.ok hs (1/4 + hs.length * (1/10000))
        { m with reorg_count := rc,
                 tx_hashes_cache := ainsert m.tx_hashes_cache height hs }

/-- `SessionManager.tx_hashes_at_blockheight` (lookup counters elided).
Python truthiness: an empty cached hash list does not count as a hit. -/
def tx_hashes_at_blockheight (m : ManagerState) (height : Nat)
    (fetches : List Fetch) : TxHashesResult :=
  match alookup m.tx_hashes_cache height with
  | some hs =>
    if hs.isEmpty then tx_hashes_miss m height fetches
    else TxHashesResult.ok hs (1/10) m
  | none => tx_hashes_miss m height fetches

/-- The reorg-counter snapshot the loop holds before its i-th fetch: the
entry value for the first, thereafter the completion counter of the
previous fetch. -/
def snapAt : List Fetch → Nat → Nat → Nat
  | _, r0, 0 => r0
  | [], r0, _ + 1 => r0
  | f :: rest, _, i + 1 => snapAt rest f.2 i

/-! ## History cache (`SessionManager.limited_history`) -/

/-- `SessionManager.limited_history` over the manager history cache.
The DB read is a pure function of the hashX and the passed limit.
Returns the result (the error side is a raised, possibly cached,
`RPCError`), the cost, the new cache and the number of DB reads made. -/
def limited_history (cache : List (List Nat × Except RPCErr (List (List Nat × Int))))
    (db : List Nat → Nat → List (List Nat × Int)) (max_send : Nat) (hashX : List Nat) :
    Except RPCErr (List (List Nat × Int)) × ℚ ×
      List (List Nat × Except RPCErr (List (List Nat × Int))) × Nat :=
  let limit := max_send / 99
  let cost : ℚ := 1/10
  match alookup cache hashX with
  | some result => (result, cost, cache, 0)
  | none =>
    let result := db hashX limit
    let cost := cost + 1/10 + result.length * (1/1000)
    let result2 : Except RPCErr (List (List Nat × Int)) :=
      if result.length ≥ limit then
        Except.error ⟨BAD_REQUEST, "history too large", cost⟩
      else Except.ok result
    (result2, cost, ainsert cache hashX result2, 1)

/-! ## Admission control (`SessionManager._manage_servers`) -/

/-- Listener state of the `_manage_servers` loop: whether it is paused
and whether the non-RPC (external) listeners are up. -/
structure ServerCtl where
  paused : Bool
  external_servers : Bool
deriving DecidableEq, Repr

/-- One wake-up of the `_manage_servers` loop with `n` live sessions:
stop non-RPC listeners when the count reaches `max_sessions`; when
paused and the count is at or below `max_sessions * 19 // 20`, restart
the external listeners. -/
def manage_servers_step (max_sessions : Nat) (ctl : ServerCtl) (n : Nat) : ServerCtl :=
  let low_watermark := max_sessions * 19 / 20
  let ctl1 :=
    if ¬ ctl.paused ∧ n ≥ max_sessions then
      { paused := true, external_servers := false }
    else ctl
  if ctl1.paused ∧ n ≤ low_watermark then
    { paused := false, external_servers := true }
  else ctl1

/-! ## Protocol negotiation (`ElectrumX.server_version`) -/

/-- `ElectrumX.PROTOCOL_MIN`. -/
def PROTOCOL_MIN : Nat × Nat := (1, 4)

/-- `ElectrumX.PROTOCOL_MAX`. -/
def PROTOCOL_MAX : Nat × Nat := (1, 11)

/-- `ElectrumX.PROTOCOL_BAD`. -/
def PROTOCOL_BAD : List (Nat × Nat) := [(1, 9)]

/-- Lexicographic order on protocol tuples. -/
def verLE (a b : Nat × Nat) : Bool :=
  Nat.blt a.1 b.1 || (Nat.beq a.1 b.1 && Nat.ble a.2 b.2)

/-- The smaller of two protocol tuples. -/
def verMin (a b : Nat × Nat) : Nat × Nat := if verLE a b then a else b

/-- The larger of two protocol tuples. -/
def verMax (a b : Nat × Nat) : Nat × Nat := if verLE a b then b else a

/-- Modelled from the spec: `util.protocol_version` (module
`electrumx.lib.util`, not among the sources under study) computes the
highest common protocol tuple of the client range and the server range,
`None` when the ranges do not overlap, and also returns the client
minimum. -/
def protocol_version (client_min client_max smin smax : Nat × Nat) :
    Option (Nat × Nat) × (Nat × Nat) :=
  let lo := verMax client_min smin
  let hi := verMin client_max smax
  (if verLE lo hi then some hi else none, client_min)

/-- Outcome of a `server.version` call. -/
inductive SVOutcome where
  | success (ptuple : Nat × Nat)
  | errorContinue (e : RPCErr)
  | disconnect (e : RPCErr)
deriving DecidableEq, Repr

/-- `ElectrumX.server_version`.  `dropMatch` abstracts whether
`env.drop_client` matches the supplied client name; installing the
handler table for the negotiated version (`set_request_handlers`) is
embedded as setting the `protocol_tuple` field. -/
def server_version (s : SessionState) (client_min client_max : Nat × Nat)
    (dropMatch : Bool) : SVOutcome × SessionState :=
  if s.sv_seen then
    (SVOutcome.errorContinue ⟨BAD_REQUEST, "server.version already sent", 0⟩, s)
  else
    let s := { s with sv_seen := true }
    if dropMatch then
      (SVOutcome.disconnect ⟨BAD_REQUEST, "unsupported client", 0⟩, s)
    else
      let pr := protocol_version client_min client_max PROTOCOL_MIN PROTOCOL_MAX
      match pr.1 with
      | some p =>
        if p ∈ PROTOCOL_BAD then
          (SVOutcome.disconnect ⟨BAD_REQUEST, "unsupported protocol version", 0⟩, s)
        else
          (SVOutcome.success p, { s with protocol_tuple := p })
      | none =>
        (SVOutcome.disconnect ⟨BAD_REQUEST, "unsupported protocol version", 0⟩, s)

/-! ## Claim theorems -/

/-- C4: one iteration of the reorg handler increments `reorg_count` by
exactly 1 and leaves `tx_hashes_cache` and `merkle_cache` empty, while
the history cache and all other manager state are unchanged. -/
theorem C4_reorg_step_frame (m : ManagerState) :
    (handle_chain_reorg_step m).reorg_count = m.reorg_count + 1 ∧
    (handle_chain_reorg_step m).tx_hashes_cache = [] ∧
    (handle_chain_reorg_step m).merkle_cache = [] ∧
    (handle_chain_reorg_step m).history_cache = m.history_cache ∧
    (handle_chain_reorg_step m).estimatefee_cache = m.estimatefee_cache ∧
    (handle_chain_reorg_step m).notified_height = m.notified_height ∧
    (handle_chain_reorg_step m).txs_sent = m.txs_sent ∧
    (handle_chain_reorg_step m).sessions = m.sessions :=
  ⟨rfl, rfl, rfl, rfl, rfl, rfl, rfl, rfl⟩

/-- C1: evaluation at the failing input.  With asset A subscribed,
`asset_unsubscribe` does remove it but returns `False`, because Python
`set.discard` always returns `None`, so the comparison with `None` in
the source is constantly false; the claimed return of `True` for a
previously subscribed key fails for every set-backed subscription kind
(contrast `scripthash_unsubscribe`, which pops from a dict and reports
membership correctly). -/
theorem C1_asset_unsubscribe_eval :
    "A" ∈ ({ initSession with asset_subs := ["A"] } : SessionState).asset_subs ∧
    asset_unsubscribe { initSession with asset_subs := ["A"] } "A"
      = Except.ok (false, initSession) ∧
    scripthash_unsubscribe { initSession with hashX_subs := [([7], "sh")] } [7]
      = (true, initSession) := by
  refine ⟨by simp, by decide, by decide⟩

/-- C6 counterexample: with `max_sessions = 10`, paused, listeners
closed, the wake-up that sees 9 live sessions already restarts the
external listeners — the low watermark is `10 * 19 // 20 = 9` and the
test is at-or-below, while the claim asserts listeners remain closed
while the count is 9 and re-open only at 8. -/
theorem C6_counterexample :
    manage_servers_step 10 { paused := true, external_servers := false } 9
      = { paused := false, external_servers := true } := by
  decide

/-- C6 amended: the controller stops all non-RPC listeners when the
session count reaches `max_sessions` and, once paused, keeps them
closed while the count exceeds the low watermark `max_sessions * 19 / 20`
and restarts them as soon as the count is at or below it; with
`max_sessions = 10` the watermark is 9, so after pausing at the 10th
connect the listeners re-open already when the count has fallen to 9. -/
theorem C6_admission_hysteresis (max_sessions n : Nat) (L : Bool) :
    (0 < max_sessions → ∀ ctl : ServerCtl, ¬ ctl.paused = true →
      max_sessions ≤ n →
      manage_servers_step max_sessions ctl n
        = { paused := true, external_servers := false }) ∧
    (max_sessions * 19 / 20 < n →
      manage_servers_step max_sessions { paused := true, external_servers := L } n
        = { paused := true, external_servers := L }) ∧
    (n ≤ max_sessions * 19 / 20 →
      manage_servers_step max_sessions { paused := true, external_servers := L } n
        = { paused := false, external_servers := true }) ∧
    (manage_servers_step 10 { paused := false, external_servers := true } 10
      = { paused := true, external_servers := false }) ∧
    (manage_servers_step 10 { paused := true, external_servers := false } 9
      = { paused := false, external_servers := true }) := by
  refine ⟨?_, ?_, ?_, by decide, by decide⟩
  · intro hpos ctl hp hn
    have hlow : max_sessions * 19 / 20 < n := by
      have : max_sessions * 19 / 20 < max_sessions :=
        Nat.div_lt_of_lt_mul (by omega)
      omega
    simp [manage_servers_step, hp, hn, Nat.not_le.mpr hlow]
  · intro hlow
    simp [manage_servers_step, Nat.not_le.mpr hlow]
  · intro hlow
    simp [manage_servers_step, hlow]

/-- C6 witness for the amended theorem: pausing at the 10th connect. -/
theorem C6_admission_hysteresis_witness :
    manage_servers_step 10 { paused := false, external_servers := true } 10
      = { paused := true, external_servers := false } :=
  (C6_admission_hysteresis 10 10 true).1 (by decide)
    { paused := false, external_servers := true } (by decide) (by decide)

/-- C7: for a session present in the manager table with group list `gs`,
`extra_cost` is the sum over the groups of (group cost minus session
cost) times group weight, the group cost being retained cost plus the
summed cost of the member sessions; for an absent session it is 0. -/
theorem C7_extra_cost (tbl : List (Nat × List SessionGroup)) (s : Sess)
    (gs : List SessionGroup) :
    (alookup tbl s.sid = some gs →
      extra_cost tbl s
        = (gs.map (fun g =>
            (g.retained_cost + (g.sessions.map Sess.cost).sum - s.cost)
              * g.weight)).sum) ∧
    (alookup tbl s.sid = none → extra_cost tbl s = 0) := by
  constructor
  · intro h
    simp [extra_cost, h, SessionGroup.cost, SessionGroup.session_cost]
  · intro h
    simp [extra_cost, h]

/-- A concrete session group for the witnesses. -/
def exGroup : SessionGroup :=
  { name := "g", weight := 1, sessions := [⟨1, 5⟩], retained_cost := 2 }

/-- C7 witness: a member session of one group of weight 1, retained
cost 2 and member cost 5 has surcharge (2 + 5 - 5) * 1 = 2; an absent
session costs 0. -/
theorem C7_extra_cost_witness :
    extra_cost [(1, [exGroup])] ⟨1, 5⟩ = 2 ∧ extra_cost [] ⟨1, 5⟩ = 0 := by
  have h := C7_extra_cost [(1, [exGroup])] ⟨1, 5⟩ [exGroup]
  refine ⟨?_, (C7_extra_cost [] ⟨1, 5⟩ []).2 rfl⟩
  rw [h.1 rfl]
  norm_num [exGroup]

/-- The history-cache type of the manager. -/
abbrev HistCache := List (List Nat × Except RPCErr (List (List Nat × Int)))

/-- The cost that `limited_history` attaches to an oversized history of
length `n`: 0.1 entry cost plus 0.1 + 0.001 * n for the DB read. -/
def oversizedCost (n : Nat) : ℚ := 1/10 + 1/10 + n * (1/1000)

/-- C5: a cache miss whose DB history reaches `max_send / 99` stores a
history-too-large `RPCError` in the cache and raises it, and while the
entry is present every later call for that hashX re-raises the stored
error with no DB read and a result independent of the DB. -/
theorem C5_history_error_sticky (cache : HistCache)
    (db db2 : List Nat → Nat → List (List Nat × Int))
    (max_send : Nat) (hashX : List Nat) (e : RPCErr) :
    (alookup cache hashX = none →
      max_send / 99 ≤ (db hashX (max_send / 99)).length →
      limited_history cache db max_send hashX
        = (Except.error ⟨BAD_REQUEST, "history too large",
             oversizedCost (db hashX (max_send / 99)).length⟩,
           oversizedCost (db hashX (max_send / 99)).length,
           ainsert cache hashX
             (Except.error ⟨BAD_REQUEST, "history too large",
                oversizedCost (db hashX (max_send / 99)).length⟩),
           1)) ∧
    (alookup cache hashX = some (Except.error e) →
      limited_history cache db max_send hashX
          = (Except.error e, 1/10, cache, 0) ∧
      limited_history cache db max_send hashX
          = limited_history cache db2 max_send hashX) := by
  constructor
  · intro hmiss hlen
    simp [limited_history, hmiss, hlen, oversizedCost]
  · intro hhit
    constructor <;> simp [limited_history, hhit]

/-- A concrete one-entry oversized history for the C5 witness. -/
def exHist : List (List Nat × Int) := [([1], 5)]

/-- C5 witness: with `max_send = 99` the limit is 1; a DB history of
length 1 trips the limit, and the stored error is then re-raised from
the cache with no DB read. -/
theorem C5_history_error_sticky_witness :
    (limited_history [] (fun _ _ => exHist) 99 [7]
      = (Except.error ⟨BAD_REQUEST, "history too large",
           oversizedCost exHist.length⟩,
         oversizedCost exHist.length,
         ainsert ([] : HistCache) [7]
           (Except.error ⟨BAD_REQUEST, "history too large",
              oversizedCost exHist.length⟩),
         1)) ∧
    (limited_history [([7], Except.error ⟨BAD_REQUEST, "history too large", 0⟩)]
        (fun _ _ => exHist) 99 [7]
      = (Except.error ⟨BAD_REQUEST, "history too large", 0⟩, 1/10,
         [([7], Except.error ⟨BAD_REQUEST, "history too large", 0⟩)], 0)) :=
  ⟨(C5_history_error_sticky [] (fun _ _ => exHist) (fun _ _ => []) 99 [7]
      ⟨BAD_REQUEST, "history too large", 0⟩).1 rfl (by decide),
   ((C5_history_error_sticky [([7], Except.error ⟨BAD_REQUEST, "history too large", 0⟩)]
      (fun _ _ => exHist) (fun _ _ => []) 99 [7]
      ⟨BAD_REQUEST, "history too large", 0⟩).2 rfl).1⟩

/-- C10: when `address_status` raises an `RPCError` while recomputing a
status during notification, `subscription_address_status` silently
discards the subscription — the hashX leaves `hashX_subs` and
`mempool_statuses` — reports `None`, and propagates no error (it is a
total function into plain pairs). -/
theorem C10_subscription_discard (st : SessionState) (hashX : List Nat)
    (e : RPCErr) (mempool : List MempoolTx) :
    subscription_address_status st hashX (Except.error e) mempool
        = (none, (unsubscribe_hashX st hashX).2) ∧
    alookup (subscription_address_status st hashX
        (Except.error e) mempool).2.hashX_subs hashX = none ∧
    alookup (subscription_address_status st hashX
        (Except.error e) mempool).2.mempool_statuses hashX = none := by
  refine ⟨rfl, ?_, ?_⟩ <;>
    simp [subscription_address_status, address_status, unsubscribe_hashX,
          alookup_aremove_self]

/-- C8: after a completed `address_status`, the hashX is a key of
`mempool_statuses` iff the status just computed used at least one
mempool tx, and no other key changes; `unsubscribe_hashX` removes any
entry for the hashX (and its subscription); `hashX_subscribe` maintains
the same membership condition — so every subscribe, unsubscribe and
status recomputation preserves the invariant. -/
theorem C8_mempool_statuses_invariant (st : SessionState) (hashX : List Nat)
    (hist : List (List Nat × Int)) (mempool : List MempoolTx)
    (r : Option String) (st' : SessionState) :
    (address_status st hashX (Except.ok hist) mempool = Except.ok (r, st') →
      ((alookup st'.mempool_statuses hashX).isSome ↔ mempool ≠ []) ∧
      ∀ k, k ≠ hashX →
        alookup st'.mempool_statuses k = alookup st.mempool_statuses k) ∧
    (alookup (unsubscribe_hashX st hashX).2.mempool_statuses hashX = none ∧
     alookup (unsubscribe_hashX st hashX).2.hashX_subs hashX = none) ∧
    (∀ aliasStr,
      hashX_subscribe st hashX aliasStr (Except.ok hist) mempool
          = Except.ok (r, st') →
      ((alookup st'.mempool_statuses hashX).isSome ↔ mempool ≠ [])) := by
  have key : ∀ (r'' : Option String) (st'' : SessionState),
      address_status st hashX (Except.ok hist) mempool
          = Except.ok (r'', st'') →
      ((alookup st''.mempool_statuses hashX).isSome ↔ mempool ≠ []) ∧
      ∀ k, k ≠ hashX →
        alookup st''.mempool_statuses k = alookup st.mempool_statuses k := by
    intro r'' st'' h
    cases mempool with
    | nil =>
      simp [address_status] at h
      obtain ⟨-, h2⟩ := h
      subst h2
      refine ⟨by simp [alookup_aremove_self], ?_⟩
      intro k hk
      exact alookup_aremove_ne _ _ _ hk
    | cons tx rest =>
      simp [address_status] at h
      obtain ⟨-, h2⟩ := h
      subst h2
      refine ⟨by simp [alookup_ainsert_self], ?_⟩
      intro k hk
      exact alookup_ainsert_ne _ _ _ _ hk
  refine ⟨key r st', ⟨?_, ?_⟩, ?_⟩
  · simp [unsubscribe_hashX, alookup_aremove_self]
  · simp [unsubscribe_hashX, alookup_aremove_self]
  · intro aliasStr h
    unfold hashX_subscribe at h
    cases heq : address_status st hashX (Except.ok hist) mempool with
    | error e => rw [heq] at h; exact absurd h (by simp)
    | ok p =>
      rw [heq] at h
      obtain ⟨r0, st0⟩ := p
      simp at h
      obtain ⟨-, h2⟩ := h
      have := (key r0 st0 heq).1
      rw [← h2]
      simpa using this

/-- The status stored for the C8 witness: one mempool tx, no history. -/
def exMemStatus : Option String :=
  some (sha256hex (statusBytes [] [⟨[2], true⟩]))

/-- The session state after the C8 witness status computation. -/
def exStateC8 : SessionState :=
  { initSession with
    mempool_statuses := ainsert initSession.mempool_statuses [7] exMemStatus }

/-- C8 witness: computing the status of hashX 0x07 with one mempool tx
places it in `mempool_statuses`. -/
theorem C8_mempool_statuses_invariant_witness :
    (alookup exStateC8.mempool_statuses [7]).isSome
      ↔ ([⟨[2], true⟩] : List MempoolTx) ≠ [] :=
  ((C8_mempool_statuses_invariant initSession [7] [] [⟨[2], true⟩]
      exMemStatus exStateC8).1 rfl).1

theorem verLE_unfold (a b : Nat × Nat) :
    verLE a b = true ↔ a.1 < b.1 ∨ (a.1 = b.1 ∧ a.2 ≤ b.2) := by
  simp [verLE, Nat.blt_eq, Nat.ble_eq]

theorem verLE_refl (a : Nat × Nat) : verLE a a = true := by
  rw [verLE_unfold]; omega

theorem verLE_trans {a b c : Nat × Nat} (h1 : verLE a b = true)
    (h2 : verLE b c = true) : verLE a c = true := by
  rw [verLE_unfold] at *; omega

theorem verLE_total (a b : Nat × Nat) : verLE a b = true ∨ verLE b a = true := by
  rw [verLE_unfold, verLE_unfold]; omega

theorem verMin_le_left (a b : Nat × Nat) : verLE (verMin a b) a = true := by
  unfold verMin
  by_cases h : verLE a b = true
  · simp [h, verLE_refl]
  · rcases verLE_total a b with h' | h'
    · exact absurd h' h
    · simp [h, h']

theorem verMin_le_right (a b : Nat × Nat) : verLE (verMin a b) b = true := by
  unfold verMin
  by_cases h : verLE a b = true
  · simp [h]
  · simp [h, verLE_refl]

theorem le_verMin {a b q : Nat × Nat} (ha : verLE q a = true)
    (hb : verLE q b = true) : verLE q (verMin a b) = true := by
  unfold verMin
  by_cases h : verLE a b = true <;> simp [h, ha, hb]

theorem left_le_verMax (a b : Nat × Nat) : verLE a (verMax a b) = true := by
  unfold verMax
  by_cases h : verLE a b = true
  · simp [h]
  · simp [h, verLE_refl]

theorem right_le_verMax (a b : Nat × Nat) : verLE b (verMax a b) = true := by
  unfold verMax
  by_cases h : verLE a b = true
  · simp [h, verLE_refl]
  · rcases verLE_total a b with h' | h'
    · exact absurd h' h
    · simp [h, h']

/-- C9: `server.version` may be sent at most once — any further call on
the session fails with a `BAD_REQUEST` error; the first call negotiates
the highest common protocol tuple within the server protocol range and
installs the handler table for it (embedded as `protocol_tuple`), and
replies-and-disconnects when the negotiated tuple is in `PROTOCOL_BAD`
or when no overlap exists. -/
theorem C9_server_version (s : SessionState) (cmin cmax p : Nat × Nat) :
    (s.sv_seen = true →
      server_version s cmin cmax false
        = (SVOutcome.errorContinue
             ⟨BAD_REQUEST, "server.version already sent", 0⟩, s)) ∧
    (s.sv_seen = false →
      (protocol_version cmin cmax PROTOCOL_MIN PROTOCOL_MAX).1 = some p →
      p ∉ PROTOCOL_BAD →
      server_version s cmin cmax false
          = (SVOutcome.success p,
             { s with sv_seen := true, protocol_tuple := p }) ∧
      (verLE PROTOCOL_MIN p = true ∧ verLE p PROTOCOL_MAX = true ∧
       verLE cmin p = true ∧ verLE p cmax = true) ∧
      (∀ q : Nat × Nat, verLE PROTOCOL_MIN q = true → verLE q PROTOCOL_MAX = true →
        verLE cmin q = true → verLE q cmax = true → verLE q p = true)) ∧
    (s.sv_seen = false →
      (protocol_version cmin cmax PROTOCOL_MIN PROTOCOL_MAX).1 = some p →
      p ∈ PROTOCOL_BAD →
      server_version s cmin cmax false
        = (SVOutcome.disconnect
             ⟨BAD_REQUEST, "unsupported protocol version", 0⟩,
           { s with sv_seen := true })) ∧
    (s.sv_seen = false →
      (protocol_version cmin cmax PROTOCOL_MIN PROTOCOL_MAX).1 = none →
      server_version s cmin cmax false
        = (SVOutcome.disconnect
             ⟨BAD_REQUEST, "unsupported protocol version", 0⟩,
           { s with sv_seen := true })) := by
  refine ⟨?_, ?_, ?_, ?_⟩
  · intro hseen
    simp [server_version, hseen]
  · intro hseen hneg hbad
    have hb : ¬ (protocol_version cmin cmax PROTOCOL_MIN PROTOCOL_MAX).1 = none := by
      simp [hneg]
    have hov : verLE (verMax cmin PROTOCOL_MIN) (verMin cmax PROTOCOL_MAX) = true ∧
        p = verMin cmax PROTOCOL_MAX := by
      by_cases h : verLE (verMax cmin PROTOCOL_MIN) (verMin cmax PROTOCOL_MAX) = true
      · refine ⟨h, ?_⟩
        simp [protocol_version, h] at hneg
        exact hneg.symm
      · simp [protocol_version, h] at hneg
    obtain ⟨hov1, hp⟩ := hov
    refine ⟨?_, ⟨?_, ?_, ?_, ?_⟩, ?_⟩
    · simp [server_version, hseen, hneg, hbad]
    · exact hp ▸ verLE_trans (verLE_trans (right_le_verMax cmin PROTOCOL_MIN) hov1)
        (verLE_refl _)
    · exact hp ▸ verMin_le_right cmax PROTOCOL_MAX
    · exact hp ▸ verLE_trans (left_le_verMax cmin PROTOCOL_MIN) hov1
    · exact hp ▸ verMin_le_left cmax PROTOCOL_MAX
    · intro q _ hq2 _ hq4
      exact hp ▸ le_verMin hq4 hq2
  · intro hseen hneg hbad
    simp [server_version, hseen, hneg, hbad]
  · intro hseen hneg
    simp [server_version, hseen, hneg]

/-- C9 witness: a fresh session negotiating client range (1,4)-(1,20)
gets (1,11), the server maximum; the negotiated table is installed. -/
theorem C9_server_version_witness :
    server_version initSession (1, 4) (1, 20) false
      = (SVOutcome.success (1, 11),
         { initSession with sv_seen := true, protocol_tuple := (1, 11) }) :=
  ((C9_server_version initSession (1, 4) (1, 20) (1, 11)).2.1 rfl
    (by decide) (by decide)).1

theorem statusBytes_eq_spec (hist : List (List Nat × Int))
    (mem : List MempoolTx) : statusBytes hist mem = specStatusBytes hist mem := by
  induction hist with
  | nil =>
    induction mem with
    | nil => simp [statusBytes, specStatusBytes]
    | cons tx rest ih =>
      simp only [statusBytes, List.map_cons, List.flatten_cons, List.map_nil,
        List.flatten_nil, List.nil_append] at ih ⊢
      simp [specStatusBytes, ← ih]
  | cons pr rest ih =>
    obtain ⟨th, ht⟩ := pr
    simp only [statusBytes, List.map_cons, List.flatten_cons] at ih ⊢
    simp [specStatusBytes, ← ih]

theorem statusBytes_nil_iff (hist : List (List Nat × Int))
    (mem : List MempoolTx) : statusBytes hist mem = [] ↔ hist = [] ∧ mem = [] := by
  cases hist with
  | nil =>
    cases mem with
    | nil => simp [statusBytes]
    | cons tx rest => simp [statusBytes]
  | cons pr rest => simp [statusBytes]

/-- C2: for every confirmed history list and mempool summary list,
`address_status` returns exactly the status of the spec rule — the
lower-case hex SHA-256 of the concatenated ASCII string, `None` when
both lists are empty; in particular, for history [(0x11 * 32, 100)] and
no mempool txs the status is the hex SHA-256 of sixty-four ones
followed by a colon, 100 and a colon. -/
theorem C2_address_status_spec :
    (∀ (st : SessionState) (hashX : List Nat) (hist : List (List Nat × Int))
        (mempool : List MempoolTx),
      (address_status st hashX (Except.ok hist) mempool).map Prod.fst
        = Except.ok (spec_scripthash_status hist mempool)) ∧
    (address_status initSession [0]
        (Except.ok [(List.replicate 32 17, 100)]) []).map Prod.fst
      = Except.ok (some (sha256hex
          (asciiBytes (String.mk (List.replicate 64 '1') ++ ":100:")))) ∧
    (address_status initSession [0] (Except.ok []) []).map Prod.fst
      = Except.ok none := by
  refine ⟨?_, ?_, rfl⟩
  · intro st hashX hist mempool
    by_cases h : hist = [] ∧ mempool = []
    · obtain ⟨h1, h2⟩ := h
      subst h1; subst h2
      rfl
    · have hne : (statusBytes hist mempool).isEmpty = false := by
        rw [List.isEmpty_eq_false]
        exact fun hh => h ((statusBytes_nil_iff hist mempool).1 hh)
      have hne2 : ¬ specStatusBytes hist mempool = [] := by
        rw [← statusBytes_eq_spec]
        exact fun hh => h ((statusBytes_nil_iff hist mempool).1 hh)
      simp [address_status, spec_scripthash_status, h, hne, hne2, Except.map,
        statusBytes_eq_spec]
  · rfl

/-- Soundness of the retry loop: an accepted fetch appears in the trace
with completion counter equal to the snapshot the loop held before it,
and every earlier fetch of the trace was an unstable fetch that was
discarded. -/
theorem fetchLoop_ok_spec (fetches : List Fetch) (r0 : Nat)
    (hs : List (List Nat)) (rc : Nat)
    (h : fetchLoop fetches r0 = some (Except.ok hs, rc)) :
    ∃ i, fetches[i]? = some (Except.ok hs, rc) ∧ snapAt fetches r0 i = rc ∧
      ∀ j < i, ∃ hs' rc', fetches[j]? = some (Except.ok hs', rc')
        ∧ rc' ≠ snapAt fetches r0 j := by
  induction fetches generalizing r0 with
  | nil => simp [fetchLoop] at h
  | cons f rest ih =>
    obtain ⟨res, c⟩ := f
    cases res with
    | error e => simp [fetchLoop] at h
    | ok hs1 =>
      by_cases hc : c = r0
      · simp [fetchLoop, hc] at h
        obtain ⟨h1, h2⟩ := h
        subst h1; subst h2
        exact ⟨0, by simp [hc], by simp [snapAt, hc], by omega⟩
      · simp only [fetchLoop, if_neg hc] at h
        obtain ⟨i, h1, h2, h3⟩ := ih c h
        refine ⟨i + 1, by simpa using h1, by simpa [snapAt] using h2, ?_⟩
        intro j hj
        cases j with
        | zero =>
          exact ⟨hs1, c, by simp, by simpa [snapAt] using hc⟩
        | succ k =>
          obtain ⟨hs', rc', hk1, hk2⟩ := h3 k (by omega)
          exact ⟨hs', rc', by simpa using hk1, by simpa [snapAt] using hk2⟩

/-- C3: `tx_hashes_at_blockheight` never installs a result fetched
under a superseded reorg generation.  A (nonempty) cache hit is
returned at cost 0.1 with the state untouched; on a miss, an installed
and returned result comes from the fetch whose completion reorg counter
equals the snapshot the loop held before it, every earlier fetch of
the trace having been discarded as unstable, it is cached at the
height, and the cost is 0.25 + 0.0001 * n for n hashes. -/
theorem C3_tx_hashes_coherence (m : ManagerState) (height : Nat)
    (fetches : List Fetch) (hs : List (List Nat)) (c : ℚ) (m' : ManagerState) :
    (∀ hs0, alookup m.tx_hashes_cache height = some hs0 → hs0 ≠ [] →
      tx_hashes_at_blockheight m height fetches
        = TxHashesResult.ok hs0 (1/10) m) ∧
    (alookup m.tx_hashes_cache height = none →
      tx_hashes_at_blockheight m height fetches = TxHashesResult.ok hs c m' →
      c = 1/4 + hs.length * (1/10000) ∧
      alookup m'.tx_hashes_cache height = some hs ∧
      ∃ i, fetches[i]? = some (Except.ok hs, snapAt fetches m.reorg_count i) ∧
        ∀ j < i, ∃ hs' rc', fetches[j]? = some (Except.ok hs', rc')
          ∧ rc' ≠ snapAt fetches m.reorg_count j) := by
  constructor
  · intro hs0 hhit hne
    have : hs0.isEmpty = false := by
      rw [List.isEmpty_eq_false]; exact hne
    simp [tx_hashes_at_blockheight, hhit, this]
  · intro hmiss hok
    rw [tx_hashes_at_blockheight, hmiss] at hok
    unfold tx_hashes_miss at hok
    cases hloop : fetchLoop fetches m.reorg_count with
    | none => rw [hloop] at hok; exact absurd hok (by simp)
    | some pr =>
      rw [hloop] at hok
      obtain ⟨res, rc⟩ := pr
      cases res with
      | error e => exact absurd hok (by simp)
      | ok hs1 =>
        simp only [TxHashesResult.ok.injEq] at hok
        obtain ⟨h1, h2, h3⟩ := hok
        rw [h1] at hloop h2 h3
        refine ⟨h2.symm, ?_, ?_⟩
        · rw [← h3]
          simp [alookup_ainsert_self]
        · obtain ⟨i, g1, g2, g3⟩ := fetchLoop_ok_spec fetches m.reorg_count hs rc hloop
          exact ⟨i, by rw [g2]; exact g1, g3⟩

/-- The fetch trace for the C3 witness: the first fetch completes after
a reorg (counter 1 against snapshot 0) and is discarded; the retry
completes with the counter unchanged and is installed. -/
def exFetches : List Fetch := [(Except.ok [[1]], 1), (Except.ok [[2]], 1)]

/-- The initial manager state of the C3 witness. -/
def exMgr : ManagerState := {}

/-- The manager state after the C3 witness call installs the result. -/
def exMgr2 : ManagerState :=
  { exMgr with reorg_count := 1,
               tx_hashes_cache := ainsert exMgr.tx_hashes_cache 100 [[2]] }

/-- C3 witness: on the two-fetch trace the stable second fetch is the
one installed for height 100, the first being discarded as unstable. -/
theorem C3_tx_hashes_coherence_witness :
    (1/4 + (([[2]] : List (List Nat)).length : ℚ) * (1/10000)
        = 1/4 + (([[2]] : List (List Nat)).length : ℚ) * (1/10000)) ∧
    alookup exMgr2.tx_hashes_cache 100 = some [[2]] ∧
    ∃ i, exFetches[i]? = some (Except.ok [[2]], snapAt exFetches exMgr.reorg_count i) ∧
      ∀ j < i, ∃ hs' rc', exFetches[j]? = some (Except.ok hs', rc')
        ∧ rc' ≠ snapAt exFetches exMgr.reorg_count j :=
  (C3_tx_hashes_coherence exMgr 100 exFetches [[2]]
      (1/4 + (([[2]] : List (List Nat)).length : ℚ) * (1/10000)) exMgr2).2
    rfl rfl
